import Mathlib

/-! # jirabot: a shallow embedding of `internal/tasks.go`

The development follows the Go source function by function.  Go strings are
Lean strings (the strings the program handles come out of `encoding/json`, which
only produces valid UTF-8); every string operation is carried out on the
character list (`String.data`).  A byte-wise prefix test between two valid UTF-8
strings is a character-wise prefix test.  The only positions the source slices
at are positions of the ASCII character `/`, which is a single byte that never
occurs inside a multi-byte UTF-8 sequence, so cutting the character list there
is the same cut as the byte slice of the source.  Counters and offsets are Go
`int`s that count list elements; they are natural numbers here.

The calls of `verifyIssueState` are studied one at a time: `verifyIssuesStates`
starts one goroutine per ticket and the source takes no lock around the append
to `*r.payloadJSON`, so the statements below describe a single call running
alone.
-/

namespace Jirabot

/-! ## Go run-time outcomes -/

/-- Outcome of a Go call of type `(T, error)` (or `error`, with `T := Unit`):
normal return with a nil error, return with a non-nil error carrying its
message, or a run-time panic. -/
inductive Outcome (α : Type) where
  | ok (a : α)
  | error (msg : String)
  | panic (msg : String)
  deriving DecidableEq, Repr

/-- Did the call return with a nil error? -/
def Outcome.isOk {α : Type} : Outcome α → Bool
  | .ok _ => true
  | _ => false

/-! ## Package `strings` -/

/-- The function `strings.HasPrefix`. -/
def HasPrefix (s pre : String) : Bool :=
  pre.data.isPrefixOf s.data

/-- The function `strings.TrimPrefix`: `s` without the leading `pre`, or `s`
itself when it does not start with `pre`. -/
def TrimPrefix (s pre : String) : String :=
  if HasPrefix s pre then ⟨s.data.drop pre.data.length⟩ else s

/-- The function `strings.LastIndex` for a one-character separator: the
position of the last occurrence, `none` standing for the result `-1`. -/
def LastIndex (c : Char) : List Char → Option Nat
  | [] => none
  | x :: xs =>
    match LastIndex c xs with
    | some i => some (i + 1)
    | none => if x = c then some 0 else none

/-! ## Package `regexp`

A regular expression is matched through Brzozowski derivatives.  The pattern of
the source starts with `^` and ends with `$` (no flags), so `MatchString`
succeeds exactly when the whole string belongs to the language of the
expression between the two anchors; that expression is what `Regex` holds. -/

/-- Regular expressions over characters, with character classes. -/
inductive Regex where
  | none
  | eps
  | cls (p : Char → Bool)
  | cat (a b : Regex)
  | alt (a b : Regex)
  | star (a : Regex)

namespace Regex

/-- A literal character. -/
def lit (c : Char) : Regex := cls (fun x => x == c)

/-- A literal string. -/
def str (w : List Char) : Regex := w.foldr (fun c r => cat (lit c) r) eps

/-- One or more repetitions, the `+` operator. -/
def plus (a : Regex) : Regex := cat a (star a)

/-- Does the expression accept the empty string? -/
def nullable : Regex → Bool
  | none => false
  | eps => true
  | cls _ => false
  | cat a b => nullable a && nullable b
  | alt a b => nullable a || nullable b
  | star _ => true

/-- Concatenation that drops a dead or empty left factor. -/
def mkCat : Regex → Regex → Regex
  | none, _ => none
  | eps, b => b
  | a, b => cat a b

/-- Alternation that drops a dead branch. -/
def mkAlt : Regex → Regex → Regex
  | none, b => b
  | a, none => a
  | a, b => alt a b

/-- Brzozowski derivative with respect to one character. -/
def deriv : Regex → Char → Regex
  | none, _ => none
  | eps, _ => none
  | cls p, c => if p c then eps else none
  | cat a b, c =>
    if nullable a then mkAlt (mkCat (deriv a c) b) (deriv b c) else mkCat (deriv a c) b
  | alt a b, c => mkAlt (deriv a c) (deriv b c)
  | star a, c => mkCat (deriv a c) (star a)

/-- Whole-string match. -/
def matchList : Regex → List Char → Bool
  | r, [] => nullable r
  | r, c :: s => matchList (deriv r c) s

/-- The language of an expression. -/
def Lang : Regex → List Char → Prop
  | none, _ => False
  | eps, s => s = []
  | cls p, s => ∃ c, p c = true ∧ s = [c]
  | cat a b, s => ∃ u v, s = u ++ v ∧ Lang a u ∧ Lang b v
  | alt a b, s => Lang a s ∨ Lang b s
  | star a, s => ∃ L : List (List Char), s = L.flatten ∧ ∀ u ∈ L, Lang a u

end Regex

/-- The method `(*Regexp).MatchString` for a pattern anchored at both ends. -/
def MatchString (re : Regex) (s : String) : Bool :=
  re.matchList s.data

/-! ## `getUpstreamPRState`: validation and URL rewriting -/

/-- The class `[^/]`. -/
def notSlash : Regex := .cls (fun c => c != '/')

/-- The class `\d`, the ASCII digits. -/
def digit : Regex := .cls Char.isDigit

/-- The pattern `^https://github\.com/[^/]+/[^/]+/pull/\d+$`. -/
def upstreamPRPattern : Regex :=
  .cat (.str "https://github.com/".data)
    (.cat (.plus notSlash)
      (.cat (.lit '/')
        (.cat (.plus notSlash)
          (.cat (.str "/pull/".data) (.plus digit)))))

/-- The local `githubPrefixForwardSlash`. -/
def githubPrefixForwardSlash : String := "https://github.com/"

/-- The local `isValidUpstreamURL` of `getUpstreamPRState`. -/
def isValidUpstreamURL (upstreamPR : String) : Bool :=
  MatchString upstreamPRPattern upstreamPR &&
    !HasPrefix upstreamPR (githubPrefixForwardSlash ++ "openshift")

/-- The shape `https://github.com/<owner>/<repo>/pull/<number>` of a reference:
owner and repo non-empty and free of `/`, number one or more ASCII digits. -/
def Shape (upstreamPR owner repo number : String) : Prop :=
  upstreamPR = "https://github.com/" ++ owner ++ "/" ++ repo ++ "/pull/" ++ number ∧
  owner.data ≠ [] ∧ '/' ∉ owner.data ∧
  repo.data ≠ [] ∧ '/' ∉ repo.data ∧
  number.data ≠ [] ∧ ∀ c ∈ number.data, c.isDigit = true

/-- The local `upstreamURLInAPICompliantFormat` after both assignments: the
API prefix is put in front of the trimmed reference and an `s` is inserted just
before the last `/`.  A missing `/` would make the slice expression panic. -/
def upstreamURLInAPICompliantFormat (upstreamPR : String) : Outcome String :=
  let url := "https://api.github.com/repos/" ++ TrimPrefix upstreamPR githubPrefixForwardSlash
  match LastIndex '/' url.data with
  | none => .panic "slice bounds out of range [:-1]"
  | some lastForwardSlashIndex =>
    .ok (String.mk (url.data.take lastForwardSlashIndex) ++ "s" ++
      String.mk (url.data.drop lastForwardSlashIndex))

/-! ## Decoded JSON -/

/-- A value decoded by `encoding/json` into an `interface{}`: `nil`, `bool`,
`float64` (kept as its literal, never inspected by the program), `string`,
`[]interface{}` or `map[string]interface{}`.  A map is a list of bindings that
is read with `List.lookup`. -/
inductive JVal where
  | null
  | bool (b : Bool)
  | num (literal : String)
  | str (s : String)
  | arr (items : List JVal)
  | obj (fields : List (String × JVal))

/-- What the pull-request host gives for a request URL: the four failing steps
of the source (`http.NewRequestWithContext`, `githubClient.Do`, `io.ReadAll`,
`json.Unmarshal`), each with the message of its error, or the decoded body. -/
inductive GHResponse where
  | requestError (e : String)
  | doError (e : String)
  | readError (e : String)
  | unmarshalError (e : String)
  | decoded (structuredBody : JVal)

/-- The classification step of `getUpstreamPRState`, from the first type
assertion on `structuredBody` to the end of the function. -/
def classify (upstreamPR : String) (structuredBody : JVal) : Outcome String :=
  match structuredBody with
  | .obj fields =>
    match fields.lookup "state" with
    | some (.str upstreamPRState) =>
      match fields.lookup "draft" with
      | some (.bool upstreamPRDraft) =>
        if upstreamPRState = "open" then
          if !upstreamPRDraft then .ok "open" else .ok "draft"
        else if upstreamPRState = "closed" then .ok "closed"
        else .error ("unknown upstream PR state: " ++ upstreamPRState)
      | _ => .error ("\"draft\" field not found in GH API response: " ++ upstreamPR)
    | _ => .error ("\"state\" field not found in GH API response: " ++ upstreamPR)
  | _ => .panic "interface conversion: structuredBody is not a map[string]interface"

/-- The part of `getUpstreamPRState` that follows the computation of the
request URL. -/
def fetchUpstreamPRState (upstreamPR : String) : GHResponse → Outcome String
  | .requestError e => .error ("failed to create upstream PR request: " ++ e)
  | .doError e => .error ("failed to fetch upstream PR state: " ++ e)
  | .readError e => .error ("failed to read upstream PR response body: " ++ e)
  | .unmarshalError e => .error ("failed to unmarshal upstream PR response body: " ++ e)
  | .decoded structuredBody => classify upstreamPR structuredBody

/-- The method `Runner.getUpstreamPRState`; `github` answers a request URL. -/
def getUpstreamPRState (github : String → GHResponse) (upstreamPR : String) : Outcome String :=
  if !isValidUpstreamURL upstreamPR then
    .error ("invalid upstream PR URL: " ++ upstreamPR)
  else
    match upstreamURLInAPICompliantFormat upstreamPR with
    | .ok url => fetchUpstreamPRState upstreamPR (github url)
    | .error e => .error e
    | .panic e => .panic e

/-! ## Package-level constants and variables -/

def JIRA_API_MAX_RESULTS_LIMIT : Nat := 1000

def DEFAULT_MON_PROJECT_UPSTREAM_ISSUES_JQL_FILTER : String :=
  "project = MON AND" ++
  " resolution = Unresolved AND" ++
  " issuetype in (Bug, Task, Sub-task, Story, Epic, Spike) AND" ++
  " \"Git Pull Request\" !~ \"https://github.com/openshift\" AND" ++
  " \"Git Pull Request\" !~ \"https://gitlab.cee.redhat.com\"" ++
  " ORDER BY priority DESC, updated DESC"

def DEFAULT_MON_PROJECT_INITIAL_STATE : String := "To Do"
def DEFAULT_MON_PROJECT_INTERMEDIATE_STATE : String := "In Progress"
def DEFAULT_MON_PROJECT_FINAL_STATE : String := "Code Review"

def RH_JIRA_INSTANCE_URL : String := "https://issues.redhat.com"

/-- The function `toIssueURL` of `utils.go`. -/
def toIssueURL (key : String) : String :=
  RH_JIRA_INSTANCE_URL ++ "/browse/" ++ key

/-- The package-level variables of `tasks.go`. -/
structure Globals where
  ProjectUpstreamIssuesJQLFilter : String
  ProjectInitialState : String
  ProjectIntermediateState : String
  ProjectFinalState : String
  mapGitHubToJIRAState : List (String × String)

/-- Package initialisation: the `var ( ... )` block.  The three state variables
are initialised first; the map literal then reads their values. -/
def initGlobals : Globals :=
  let ProjectInitialState := DEFAULT_MON_PROJECT_INITIAL_STATE
  let ProjectIntermediateState := DEFAULT_MON_PROJECT_INTERMEDIATE_STATE
  let ProjectFinalState := DEFAULT_MON_PROJECT_FINAL_STATE
  { ProjectUpstreamIssuesJQLFilter := DEFAULT_MON_PROJECT_UPSTREAM_ISSUES_JQL_FILTER
    ProjectInitialState := ProjectInitialState
    ProjectIntermediateState := ProjectIntermediateState
    ProjectFinalState := ProjectFinalState
    mapGitHubToJIRAState :=
      [("open", ProjectFinalState), ("draft", ProjectIntermediateState),
       ("closed", ProjectInitialState)] }

/-- Indexing a Go `map[string]string`: the zero value for a missing key. -/
def mapIndex (m : List (String × String)) (key : String) : String :=
  (m.lookup key).getD ""

/-- The mutable part of a `Runner`: the accumulation buffer `payloadJSON`
(`none` for the nil pointer) and the messages printed through `r.logger`. -/
structure Runner where
  payloadJSON : Option String
  logger : List String

/-- The method `Runner.respectOverrides`; `lookupEnv` is `os.LookupEnv`. -/
def respectOverrides (lookupEnv : String → Option String) (r : Runner) (g : Globals) :
    Runner × Globals :=
  let (r, g) :=
    match lookupEnv "PROJECT_UPSTREAM_ISSUES_JQL_FILTER" with
    | some value =>
      ({ r with logger := r.logger ++ ["Overriding PROJECT_UPSTREAM_ISSUES_JQL_FILTER with: " ++ value] },
       { g with ProjectUpstreamIssuesJQLFilter := value })
    | none => (r, g)
  let (r, g) :=
    match lookupEnv "PROJECT_INITIAL_STATE" with
    | some value =>
      ({ r with logger := r.logger ++ ["Overriding PROJECT_INITIAL_STATE with: " ++ value] },
       { g with ProjectInitialState := value })
    | none => (r, g)
  let (r, g) :=
    match lookupEnv "PROJECT_INTERMEDIATE_STATE" with
    | some value =>
      ({ r with logger := r.logger ++ ["Overriding PROJECT_INTERMEDIATE_STATE with: " ++ value] },
       { g with ProjectIntermediateState := value })
    | none => (r, g)
  match lookupEnv "PROJECT_FINAL_STATE" with
  | some value =>
    ({ r with logger := r.logger ++ ["Overriding PROJECT_FINAL_STATE with: " ++ value] },
     { g with ProjectFinalState := value })
  | none => (r, g)

/-! ## Tickets and the tracker backend -/

/-- The type `jira.User`, with the two fields the program reads. -/
structure User where
  DisplayName : String
  EmailAddress : String

/-- The type `jira.IssueFields`, with the fields the program reads: `Status`
holds `Status.Name`, `Assignee` is `none` for the nil pointer, `Unknowns` is the
map of the fields that have no struct member. -/
structure IssueFields where
  Summary : String
  Status : String
  Assignee : Option User
  Unknowns : List (String × JVal)

/-- The type `jira.Issue`. -/
structure Issue where
  ID : String
  Key : String
  Fields : IssueFields

/-- Everything outside the process that `verifyIssueState` consults:
`GetTransitions` answers `jiraClient.Issue.GetTransitionsWithContext` for an
issue ID with the names of the transitions or the message of an error, `github`
answers a pull-request request, and `rangeOrder` is the order in which a
`range` loop visits the keys of a map that holds the given keys (unspecified in
Go; a faithful run-time returns a permutation of its argument). -/
structure World where
  GetTransitions : String → Except String (List String)
  github : String → GHResponse
  rangeOrder : List String → List String

/-! ## `verifyIssueState` -/

/-- The state of the loop over the linked pull requests: the counters
`observedJIRAStates` (a Go `map[string]int` read only by indexing, hence a
function), the messages logged so far, and the references handed to
`getUpstreamPRState` so far. -/
structure LoopState where
  observedJIRAStates : String → Nat
  logger : List String
  classified : List String

/-- The statement `observedJIRAStates[wantJIRAState] += 1`. -/
def increment (observed : String → Nat) (key : String) : String → Nat :=
  fun k => if k = key then observed k + 1 else observed k

/-- The loop `for _, upstreamPRRaw := range upstreamPRRawList` of
`verifyIssueState`. -/
def countLinkedPRs (g : Globals) (w : World) (issue : Issue) (jiraMirrorState : String) :
    List JVal → LoopState → Outcome Unit × LoopState
  | [], st => (.ok (), st)
  | upstreamPRRaw :: rest, st =>
    match upstreamPRRaw with
    | .str upstreamPR =>
      let st := { st with classified := st.classified ++ [upstreamPR] }
      match getUpstreamPRState w.github upstreamPR with
      | .error e => (.error e, st)
      | .panic e => (.panic e, st)
      | .ok githubMirrorState =>
        let wantJIRAState := mapIndex g.mapGitHubToJIRAState githubMirrorState
        let observedJIRAStates := increment st.observedJIRAStates wantJIRAState
        let logger :=
          if jiraMirrorState != wantJIRAState then
            st.logger ++ ["[DEBUG:PR] [" ++ issue.Fields.Summary ++ "] " ++ upstreamPR ++ " [" ++
              githubMirrorState ++ "] \n\t- [" ++ jiraMirrorState ++ "] " ++ toIssueURL issue.Key ++
              "\n\t+ [" ++ wantJIRAState ++ "] " ++ toIssueURL issue.Key]
          else st.logger
        countLinkedPRs g w issue jiraMirrorState rest
          { st with observedJIRAStates := observedJIRAStates, logger := logger }
    | _ => (.error ("invalid linked PR type for: " ++ issue.Key), st)

/-- The inference of the overall state from the counters. -/
def resolve (g : Globals) (observedJIRAStates : String → Nat) : String :=
  let resolvedJIRAState := g.ProjectInitialState
  let resolvedJIRAState :=
    if observedJIRAStates g.ProjectIntermediateState ≥ 1 then g.ProjectIntermediateState
    else resolvedJIRAState
  let resolvedJIRAState :=
    if observedJIRAStates g.ProjectFinalState ≥ 1 then g.ProjectFinalState
    else resolvedJIRAState
  resolvedJIRAState

/-- The local `assigneeInformation`. -/
def assigneeInformation (issue : Issue) : String :=
  match issue.Fields.Assignee with
  | none => "NO ASSIGNEE"
  | some a => "[" ++ a.DisplayName ++ "](mailto:" ++ a.EmailAddress ++ ")"

/-- The bullet appended to `*r.payloadJSON`.  The Go literal ends in `\\n`: a
backslash followed by the letter n. -/
def bullet (issue : Issue) (resolvedJIRAState jiraMirrorState : String) : String :=
  "* [" ++ issue.Fields.Summary ++ "](" ++ toIssueURL issue.Key ++ "), assigned to " ++
    assigneeInformation issue ++ ": Expected issue state to be '" ++ resolvedJIRAState ++
    "', but got '" ++ jiraMirrorState ++ "'.\\n"

/-- The report of a mismatch at the end of `verifyIssueState`. -/
def reportDrift (r : Runner) (issue : Issue) (resolvedJIRAState jiraMirrorState : String) :
    Runner :=
  if jiraMirrorState != resolvedJIRAState then
    match r.payloadJSON with
    | some payload =>
      { payloadJSON := some (payload ++ bullet issue resolvedJIRAState jiraMirrorState)
        logger := r.logger ++ ["[DEBUG:ISSUE] [" ++ issue.Fields.Summary ++ "] " ++ issue.Key ++
          " [" ++ jiraMirrorState ++ "] \n\t- [" ++ jiraMirrorState ++ "] " ++ toIssueURL issue.Key ++
          "\n\t+ [" ++ resolvedJIRAState ++ "] " ++ toIssueURL issue.Key] }
    | none => r
  else r

/-- What one call of `verifyIssueState` does: the returned error (or panic),
the runner afterwards, the references handed to `getUpstreamPRState` in order,
and the value of the local `resolvedJIRAState` when the call got that far. -/
structure Verdict where
  result : Outcome Unit
  runner : Runner
  classified : List String
  resolvedJIRAState : Option String

/-- The set `definedStates`: the distinct values of `mapGitHubToJIRAState`. -/
def definedStates (g : Globals) : List String :=
  (g.mapGitHubToJIRAState.map Prod.snd).dedup

/-- The method `Runner.verifyIssueState`. -/
def verifyIssueState (g : Globals) (w : World) (r : Runner) (issue : Issue) : Verdict :=
  match w.GetTransitions issue.ID with
  | .error e =>
    { result := .error ("failed to get possible states for issue \"" ++ issue.Key ++ "\": " ++ e)
      runner := r, classified := [], resolvedJIRAState := none }
  | .ok possibleStates =>
    match (w.rangeOrder (definedStates g)).find? (fun state => !possibleStates.contains state) with
    | some state =>
      { result := .error ("state \"" ++ state ++ "\" is not a valid state for issue \"" ++
          issue.Key ++ "\"")
        runner := r, classified := [], resolvedJIRAState := none }
    | none =>
      let jiraMirrorState := issue.Fields.Status
      match issue.Fields.Unknowns.lookup "customfield_12310220" with
      | none =>
        { result := .error ("no linked PRs found for: " ++ issue.Key)
          runner := r, classified := [], resolvedJIRAState := none }
      | some (.arr upstreamPRRawList) =>
        match countLinkedPRs g w issue jiraMirrorState upstreamPRRawList
            { observedJIRAStates := fun _ => 0, logger := r.logger, classified := [] } with
        | (.ok _, st) =>
          let resolvedJIRAState := resolve g st.observedJIRAStates
          { result := .ok ()
            runner := reportDrift { r with logger := st.logger } issue resolvedJIRAState
              jiraMirrorState
            classified := st.classified
            resolvedJIRAState := some resolvedJIRAState }
        | (.error e, st) =>
          { result := .error e, runner := { r with logger := st.logger }
            classified := st.classified, resolvedJIRAState := none }
        | (.panic e, st) =>
          { result := .panic e, runner := { r with logger := st.logger }
            classified := st.classified, resolvedJIRAState := none }
      | some _ =>
        { result := .panic "interface conversion: upstreamPRRawListI is not a []interface"
          runner := r, classified := [], resolvedJIRAState := none }

/-! ## `getIssues` -/

/-- The type `jira.SearchOptions`, with the two fields the program sets. -/
structure SearchOptions where
  StartAt : Nat
  MaxResults : Nat
  deriving DecidableEq, Repr

/-- The answer of `jiraClient.Issue.SearchWithContext`: a page of issues with
`response.Total`, or the message of an error. -/
inductive SearchResponse where
  | page (gotIssues : List Issue) (Total : Int)
  | error (e : String)

/-- What `getIssues` returns (`issues`, and `err` with `none` for nil), and the
options of the search requests it made, in order. -/
structure Fetched where
  issues : List Issue
  err : Option String
  requests : List SearchOptions

/-- The `for` loop of `getIssues`.  `search n jql options` is the answer to the
request made after `n` earlier ones.  The loop of the source has no bound; each
iteration here uses one unit of `fuel` and the result is `none` when the fuel
runs out before the loop ends. -/
def getIssuesLoop (search : Nat → String → SearchOptions → SearchResponse) (jql : String) :
    Nat → List Issue → Nat → List SearchOptions → Option Fetched
  | 0, _, _, _ => none
  | fuel + 1, issues, fetchedIssuesCount, requests =>
    let options : SearchOptions :=
      { StartAt := fetchedIssuesCount, MaxResults := JIRA_API_MAX_RESULTS_LIMIT }
    match search requests.length jql options with
    | .error e =>
      some { issues := [], err := some ("failed to fetch issues: " ++ e)
             requests := requests ++ [options] }
    | .page gotIssues Total =>
      let issues := issues ++ gotIssues
      let fetchedIssuesCount := fetchedIssuesCount + gotIssues.length
      if (fetchedIssuesCount : Int) ≥ Total then
        some { issues := issues, err := none, requests := requests ++ [options] }
      else
        getIssuesLoop search jql fuel issues fetchedIssuesCount (requests ++ [options])

/-- The method `Runner.getIssues`, run for at most `fuel` iterations. -/
def getIssues (search : Nat → String → SearchOptions → SearchResponse) (jql : String)
    (fuel : Nat) : Option Fetched :=
  getIssuesLoop search jql fuel [] 0 []

/-! ## Runs of the pagination loop

A run is described by the pages the backend returns: `pg i` is the page given
in answer to the request made after `i` earlier ones. -/

/-- Number of tickets returned by the pages before page `n`. -/
def fetchedBefore (pg : Nat → List Issue) : Nat → Nat
  | 0 => 0
  | n + 1 => fetchedBefore pg n + (pg n).length

/-- Concatenation, in order, of the pages before page `n`. -/
def pagesBefore (pg : Nat → List Issue) : Nat → List Issue
  | 0 => []
  | n + 1 => pagesBefore pg n ++ pg n

/-- The requests for the pages before page `n`: page `i` is asked for with a
start offset equal to the number of tickets of the earlier pages and with
`maxResults` 1000. -/
def requestsBefore (pg : Nat → List Issue) : Nat → List SearchOptions
  | 0 => []
  | n + 1 => requestsBefore pg n ++ [{ StartAt := fetchedBefore pg n, MaxResults := 1000 }]

/-- What `getIssues` returns after the request for page `k`, answered by
`last`, when the earlier pages were `pg 0`, ..., `pg (k - 1)`. -/
def fetchedAfter (pg : Nat → List Issue) (k : Nat) : SearchResponse → Fetched
  | .page gotIssues _ =>
    { issues := pagesBefore pg k ++ gotIssues, err := none
      requests := requestsBefore pg k ++ [{ StartAt := fetchedBefore pg k, MaxResults := 1000 }] }
  | .error e =>
    { issues := [], err := some ("failed to fetch issues: " ++ e)
      requests := requestsBefore pg k ++ [{ StartAt := fetchedBefore pg k, MaxResults := 1000 }] }

/-! ## Concrete scenarios -/

/-- A pull-request host on which pull request 1 of `org/repo` is closed, 2 is open
and ready for review, 3 is an open draft; nothing else exists. -/
def scenarioGithub (url : String) : GHResponse :=
  if url = "https://api.github.com/repos/org/repo/pulls/1" then
    .decoded (.obj [("state", .str "closed"), ("draft", .bool false)])
  else if url = "https://api.github.com/repos/org/repo/pulls/2" then
    .decoded (.obj [("state", .str "open"), ("draft", .bool false)])
  else if url = "https://api.github.com/repos/org/repo/pulls/3" then
    .decoded (.obj [("state", .str "open"), ("draft", .bool true)])
  else .doError "not found"

/-- A world whose tracker permits the given transitions for every ticket and
whose `range` loops visit keys in the listed order. -/
def scenarioWorld (transitions : List String) : World :=
  { GetTransitions := fun _ => .ok transitions
    github := scenarioGithub
    rangeOrder := id }

/-- The ticket `MON-1` in the given state, with the given value of the
linked-pull-request field (`none`: the field is absent). -/
def scenarioIssue (status : String) (links : Option JVal) : Issue :=
  { ID := "10001"
    Key := "MON-1"
    Fields :=
      { Summary := "Fix alerts"
        Status := status
        Assignee := none
        Unknowns :=
          match links with
          | some l => [("customfield_12310220", l)]
          | none => [] } }

/-- The ticket `MON-2`, assigned to Ada, in the given state and with the given
linked pull requests. -/
def scenarioAssignedIssue (status : String) (links : List String) : Issue :=
  { ID := "10002"
    Key := "MON-2"
    Fields :=
      { Summary := "Tune rules"
        Status := status
        Assignee := some { DisplayName := "Ada", EmailAddress := "ada@example.com" }
        Unknowns := [("customfield_12310220", .arr (links.map JVal.str))] } }

/-- A tracker that reports a total of 2 and answers every request with a page
of one ticket. -/
def scenarioSearch (_ : Nat) (_ : String) (_ : SearchOptions) : SearchResponse :=
  .page [scenarioIssue "To Do" none] 2

/-- A tracker that reports a total of 2, answers the first request with a page
of one ticket and fails afterwards. -/
def scenarioFailingSearch (n : Nat) (_ : String) (_ : SearchOptions) : SearchResponse :=
  if n = 0 then .page [scenarioIssue "To Do" none] 2 else .error "connection reset"

/-- The default transitions of the project. -/
def defaultTransitions : List String := ["To Do", "In Progress", "Code Review"]

/-- An environment in which only `PROJECT_FINAL_STATE` is set, to `Review`. -/
def scenarioEnv (name : String) : Option String :=
  if name = "PROJECT_FINAL_STATE" then some "Review" else none

end Jirabot

/-! # Properties -/

namespace Jirabot

/-! ## Correctness of the matcher -/

namespace Regex

theorem lang_mkCat (a b : Regex) (s : List Char) :
    Lang (mkCat a b) s ↔ Lang (cat a b) s := by
  cases a with
  | eps =>
    simp only [mkCat, Lang]
    constructor
    · intro h
      exact ⟨[], s, rfl, rfl, h⟩
    · rintro ⟨u, v, hs, hu, hv⟩
      rw [hs, hu]
      exact hv
  | _ => simp [mkCat, Lang]

theorem lang_mkAlt (a b : Regex) (s : List Char) :
    Lang (mkAlt a b) s ↔ Lang (alt a b) s := by
  cases a <;> cases b <;> simp [mkAlt, Lang]

theorem nullable_iff (r : Regex) : nullable r = true ↔ Lang r [] := by
  induction r with
  | none => simp [nullable, Lang]
  | eps => simp [nullable, Lang]
  | cls p => simp [nullable, Lang]
  | cat a b iha ihb =>
    simp only [nullable, Lang, Bool.and_eq_true, iha, ihb]
    constructor
    · rintro ⟨h1, h2⟩
      exact ⟨[], [], rfl, h1, h2⟩
    · rintro ⟨u, v, huv, h1, h2⟩
      have h := List.append_eq_nil.mp huv.symm
      rw [h.1] at h1
      rw [h.2] at h2
      exact ⟨h1, h2⟩
  | alt a b iha ihb => simp [nullable, Lang, iha, ihb]
  | star a _ =>
    simp only [nullable, Lang, true_iff]
    exact ⟨[], rfl, by simp⟩

theorem lang_star_cons (a : Regex) (c : Char) (s : List Char) :
    Lang (star a) (c :: s) ↔ ∃ u v, s = u ++ v ∧ Lang a (c :: u) ∧ Lang (star a) v := by
  constructor
  · rintro ⟨L, hL, hall⟩
    induction L with
    | nil => simp at hL
    | cons x L ih =>
      cases x with
      | nil =>
        apply ih
        · simpa using hL
        · intro u hu
          exact hall u (List.mem_cons_of_mem _ hu)
      | cons d x =>
        simp only [List.flatten_cons, List.cons_append, List.cons.injEq] at hL
        obtain ⟨hd, hs⟩ := hL
        subst hd
        refine ⟨x, L.flatten, hs, hall _ (List.mem_cons_self _ _), L, rfl, ?_⟩
        intro u hu
        exact hall u (List.mem_cons_of_mem _ hu)
  · rintro ⟨u, v, hs, hu, L, hv, hall⟩
    refine ⟨(c :: u) :: L, ?_, ?_⟩
    · simp [hs, hv]
    · intro w hw
      rcases List.mem_cons.mp hw with h | h
      · rw [h]; exact hu
      · exact hall w h

theorem lang_cat_cons (a b : Regex) (c : Char) (s : List Char) :
    Lang (cat a b) (c :: s) ↔
      (Lang a [] ∧ Lang b (c :: s)) ∨ ∃ u v, s = u ++ v ∧ Lang a (c :: u) ∧ Lang b v := by
  constructor
  · rintro ⟨u, v, huv, hu, hv⟩
    cases u with
    | nil =>
      left
      simp only [List.nil_append] at huv
      rw [huv]
      exact ⟨hu, hv⟩
    | cons d u =>
      right
      simp only [List.cons_append, List.cons.injEq] at huv
      obtain ⟨hd, hs⟩ := huv
      subst hd
      exact ⟨u, v, hs, hu, hv⟩
  · rintro (⟨h1, h2⟩ | ⟨u, v, hs, hu, hv⟩)
    · exact ⟨[], c :: s, rfl, h1, h2⟩
    · exact ⟨c :: u, v, by simp [hs], hu, hv⟩

theorem lang_deriv (r : Regex) (c : Char) (s : List Char) :
    Lang (deriv r c) s ↔ Lang r (c :: s) := by
  induction r generalizing s with
  | none => simp [deriv, Lang]
  | eps => simp [deriv, Lang]
  | cls p =>
    by_cases hp : p c = true
    · simp only [deriv, hp, if_true, Lang]
      constructor
      · intro h
        exact ⟨c, hp, by rw [h]⟩
      · rintro ⟨d, _, hd⟩
        simp only [List.cons.injEq] at hd
        exact hd.2
    · simp only [deriv, hp, Lang]
      constructor
      · intro h
        simp at h
      · rintro ⟨d, hd, hcd⟩
        simp only [List.cons.injEq] at hcd
        rw [← hcd.1] at hd
        exact absurd hd hp
  | cat a b iha ihb =>
    rw [lang_cat_cons]
    by_cases hn : nullable a = true
    · have hn2 := (nullable_iff a).mp hn
      simp only [deriv, if_pos hn, lang_mkAlt, lang_mkCat, Lang, iha, ihb]
      constructor
      · rintro (⟨u, v, hs, hu, hv⟩ | h)
        · exact Or.inr ⟨u, v, hs, hu, hv⟩
        · exact Or.inl ⟨hn2, h⟩
      · rintro (⟨_, h⟩ | ⟨u, v, hs, hu, hv⟩)
        · exact Or.inr h
        · exact Or.inl ⟨u, v, hs, hu, hv⟩
    · have hn2 : ¬ Lang a [] := fun h => hn ((nullable_iff a).mpr h)
      simp only [deriv, if_neg hn, lang_mkCat, Lang, iha]
      constructor
      · rintro ⟨u, v, hs, hu, hv⟩
        exact Or.inr ⟨u, v, hs, hu, hv⟩
      · rintro (⟨h, _⟩ | ⟨u, v, hs, hu, hv⟩)
        · exact absurd h hn2
        · exact ⟨u, v, hs, hu, hv⟩
  | alt a b iha ihb => simp [deriv, lang_mkAlt, Lang, iha, ihb]
  | star a iha =>
    rw [lang_star_cons]
    simp only [deriv, lang_mkCat]
    constructor
    · rintro ⟨u, v, hs, hu, hv⟩
      exact ⟨u, v, hs, (iha u).mp hu, hv⟩
    · rintro ⟨u, v, hs, hu, hv⟩
      exact ⟨u, v, hs, (iha u).mpr hu, hv⟩

theorem matchList_iff (r : Regex) (s : List Char) : matchList r s = true ↔ Lang r s := by
  induction s generalizing r with
  | nil => simpa [matchList] using nullable_iff r
  | cons c s ih =>
    rw [matchList, ih, lang_deriv]

end Regex

/-! ## The language of the reference pattern -/

theorem lang_lit_cat (c : Char) (r : Regex) (s : List Char) :
    (Regex.cat (Regex.lit c) r).Lang s ↔ ∃ v, s = c :: v ∧ r.Lang v := by
  simp only [Regex.Lang, Regex.lit]
  constructor
  · rintro ⟨u, v, hs, ⟨d, hd, hu⟩, hv⟩
    have hdc : d = c := by simpa using hd
    refine ⟨v, ?_, hv⟩
    rw [hs, hu, hdc]
    rfl
  · rintro ⟨v, hs, hv⟩
    exact ⟨[c], v, by rw [hs]; rfl, ⟨c, by simp, rfl⟩, hv⟩

theorem lang_str_cat (w : List Char) (r : Regex) (s : List Char) :
    (Regex.cat (Regex.str w) r).Lang s ↔ ∃ v, s = w ++ v ∧ r.Lang v := by
  induction w generalizing s with
  | nil =>
    simp only [Regex.str, List.foldr_nil, Regex.Lang, List.nil_append]
    constructor
    · rintro ⟨u, v, hs, hu, hv⟩
      exact ⟨v, by rw [hs, hu]; rfl, hv⟩
    · rintro ⟨v, hs, hv⟩
      exact ⟨[], v, by rw [hs]; rfl, rfl, hv⟩
  | cons c w ih =>
    have hstr : Regex.str (c :: w) = Regex.cat (Regex.lit c) (Regex.str w) := rfl
    constructor
    · rintro ⟨u, v, hs, hu, hv⟩
      rw [hstr] at hu
      obtain ⟨u1, hu1, hw⟩ := (lang_lit_cat c _ u).mp hu
      obtain ⟨v1, hv1, hr⟩ := (ih (u1 ++ v)).mp ⟨u1, v, rfl, hw, hv⟩
      refine ⟨v1, ?_, hr⟩
      rw [hs, hu1, List.cons_append, hv1, List.cons_append]
    · rintro ⟨v, hs, hv⟩
      obtain ⟨u1, v1, h1, hu1, hv1⟩ := (ih (w ++ v)).mpr ⟨v, rfl, hv⟩
      refine ⟨c :: u1, v1, ?_, ?_, hv1⟩
      · rw [hs, List.cons_append, h1, List.cons_append]
      · rw [hstr]
        exact (lang_lit_cat c _ _).mpr ⟨u1, rfl, hu1⟩

theorem lang_star_cls (p : Char → Bool) (s : List Char) :
    (Regex.star (Regex.cls p)).Lang s ↔ ∀ c ∈ s, p c = true := by
  induction s with
  | nil =>
    simp only [List.not_mem_nil, false_imp_iff, implies_true, iff_true]
    exact ⟨[], rfl, by simp⟩
  | cons c s ih =>
    rw [Regex.lang_star_cons]
    constructor
    · rintro ⟨u, v, hs, ⟨d, hd, hu⟩, hv⟩
      simp only [List.cons.injEq] at hu
      obtain ⟨hcd, hu⟩ := hu
      subst hcd hu
      simp only [List.nil_append] at hs
      subst hs
      intro x hx
      rcases List.mem_cons.mp hx with h | h
      · rw [h]; exact hd
      · exact ih.mp hv x h
    · intro h
      refine ⟨[], s, rfl, ⟨c, h c (List.mem_cons_self _ _), rfl⟩, ?_⟩
      exact ih.mpr (fun x hx => h x (List.mem_cons_of_mem _ hx))

theorem lang_plus_cls_cat (p : Char → Bool) (r : Regex) (s : List Char) :
    (Regex.cat (Regex.plus (Regex.cls p)) r).Lang s ↔
      ∃ u v, s = u ++ v ∧ u ≠ [] ∧ (∀ c ∈ u, p c = true) ∧ r.Lang v := by
  constructor
  · rintro ⟨u, v, hs, ⟨u1, u2, hu, ⟨d, hd, hu1⟩, hu2⟩, hv⟩
    refine ⟨u, v, hs, ?_, ?_, hv⟩
    · rw [hu, hu1]; simp
    · intro c hc
      rw [hu, hu1] at hc
      rcases List.mem_cons.mp hc with h | h
      · rw [h]; exact hd
      · exact (lang_star_cls p u2).mp hu2 c h
  · rintro ⟨u, v, hs, hne, hall, hv⟩
    cases u with
    | nil => exact absurd rfl hne
    | cons d u =>
      refine ⟨d :: u, v, hs, ⟨[d], u, rfl, ⟨d, hall d (List.mem_cons_self _ _), rfl⟩, ?_⟩, hv⟩
      exact (lang_star_cls p u).mpr (fun x hx => hall x (List.mem_cons_of_mem _ hx))

theorem lang_plus_cls (p : Char → Bool) (s : List Char) :
    (Regex.plus (Regex.cls p)).Lang s ↔ s ≠ [] ∧ ∀ c ∈ s, p c = true := by
  constructor
  · rintro ⟨u1, u2, hu, ⟨d, hd, hu1⟩, hu2⟩
    refine ⟨by rw [hu, hu1]; simp, ?_⟩
    intro c hc
    rw [hu, hu1] at hc
    rcases List.mem_cons.mp hc with h | h
    · rw [h]; exact hd
    · exact (lang_star_cls p u2).mp hu2 c h
  · rintro ⟨hne, hall⟩
    cases s with
    | nil => exact absurd rfl hne
    | cons d u =>
      exact ⟨[d], u, rfl, ⟨d, hall d (List.mem_cons_self _ _), rfl⟩,
        (lang_star_cls p u).mpr (fun x hx => hall x (List.mem_cons_of_mem _ hx))⟩

theorem notSlash_iff (u : List Char) :
    (∀ c ∈ u, (fun c : Char => c != '/') c = true) ↔ '/' ∉ u := by
  constructor
  · intro h hmem
    have := h '/' hmem
    simp at this
  · intro h c hc
    simp only [bne_iff_ne, ne_eq]
    intro hEq
    exact h (hEq ▸ hc)

/-- The pattern accepts exactly the references of the shape
`https://github.com/<owner>/<repo>/pull/<number>`. -/
theorem matchString_pattern_iff (upstreamPR : String) :
    MatchString upstreamPRPattern upstreamPR = true ↔
      ∃ owner repo number : String, Shape upstreamPR owner repo number := by
  unfold MatchString
  rw [Regex.matchList_iff]
  unfold upstreamPRPattern notSlash digit
  rw [lang_str_cat]
  constructor
  · rintro ⟨v, hs, hv⟩
    obtain ⟨owner, v1, hv1, hne1, hall1, hv⟩ := (lang_plus_cls_cat _ _ _).mp hv
    obtain ⟨v2, hv2, hv⟩ := (lang_lit_cat _ _ _).mp hv
    obtain ⟨repo, v3, hv3, hne2, hall2, hv⟩ := (lang_plus_cls_cat _ _ _).mp hv
    obtain ⟨number, hv4, hv⟩ := (lang_str_cat _ _ _).mp hv
    obtain ⟨hne3, hall3⟩ := (lang_plus_cls _ _).mp hv
    refine ⟨⟨owner⟩, ⟨repo⟩, ⟨number⟩, ?_, hne1, (notSlash_iff _).mp hall1, hne2,
      (notSlash_iff _).mp hall2, hne3, hall3⟩
    apply String.ext
    simp only [String.data_append]
    rw [hs, hv1, hv2, hv3, hv4]
    simp
  · rintro ⟨owner, repo, number, hs, hne1, hall1, hne2, hall2, hne3, hall3⟩
    refine ⟨owner.data ++ '/' :: repo.data ++ "/pull/".data ++ number.data, ?_, ?_⟩
    · rw [hs]
      simp
    · refine (lang_plus_cls_cat _ _ _).mpr
        ⟨owner.data, '/' :: repo.data ++ "/pull/".data ++ number.data, by simp, hne1,
          (notSlash_iff _).mpr hall1, ?_⟩
      refine (lang_lit_cat _ _ _).mpr ⟨repo.data ++ "/pull/".data ++ number.data, by simp, ?_⟩
      refine (lang_plus_cls_cat _ _ _).mpr
        ⟨repo.data, "/pull/".data ++ number.data, by simp, hne2, (notSlash_iff _).mpr hall2, ?_⟩
      exact (lang_str_cat _ _ _).mpr ⟨number.data, rfl, (lang_plus_cls _ _).mpr ⟨hne3, hall3⟩⟩

/-! ## Prefixes, trimming and the last separator -/

theorem prefix_before_separator (o owner rest : List Char) (c : Char) (ho : c ∉ o) :
    o <+: owner ++ c :: rest ↔ o <+: owner := by
  constructor
  · intro h
    by_cases hlen : o.length ≤ owner.length
    · exact List.prefix_of_prefix_length_le h (List.prefix_append _ _) hlen
    · exfalso
      have h1 : owner ++ [c] <+: owner ++ c :: rest := by
        have : owner ++ c :: rest = (owner ++ [c]) ++ rest := by simp
        rw [this]
        exact List.prefix_append _ _
      have h2 : owner ++ [c] <+: o :=
        List.prefix_of_prefix_length_le h1 h (by simp; omega)
      exact ho (h2.subset (by simp))
  · intro h
    exact h.trans (List.prefix_append _ _)

theorem hasPrefix_iff (s pre : String) : HasPrefix s pre = true ↔ pre.data <+: s.data := by
  unfold HasPrefix
  exact List.isPrefixOf_iff_prefix

theorem hasPrefix_openshift_of_shape (upstreamPR owner repo number : String)
    (h : Shape upstreamPR owner repo number) :
    HasPrefix upstreamPR (githubPrefixForwardSlash ++ "openshift") = HasPrefix owner "openshift" := by
  rw [Bool.eq_iff_iff, hasPrefix_iff, hasPrefix_iff, h.1]
  have hd : ("https://github.com/" ++ owner ++ "/" ++ repo ++ "/pull/" ++ number).data =
      "https://github.com/".data ++ (owner.data ++ '/' :: (repo.data ++ "/pull/".data ++ number.data)) := by
    simp
  have hp : (githubPrefixForwardSlash ++ "openshift").data =
      "https://github.com/".data ++ "openshift".data := by
    simp [githubPrefixForwardSlash]
  rw [hd, hp, List.prefix_append_right_inj]
  exact prefix_before_separator _ _ _ _ (by decide)

theorem lastIndex_none (c : Char) (n : List Char) (h : c ∉ n) : LastIndex c n = none := by
  induction n with
  | nil => rfl
  | cons x n ih =>
    have hx : x ≠ c := fun e => h (e ▸ List.mem_cons_self _ _)
    have hn : c ∉ n := fun e => h (List.mem_cons_of_mem _ e)
    simp [LastIndex, ih hn, hx]

theorem lastIndex_append (c : Char) (a n : List Char) (h : c ∉ n) :
    LastIndex c (a ++ c :: n) = some a.length := by
  induction a with
  | nil => simp [LastIndex, lastIndex_none c n h]
  | cons x a ih => simp [LastIndex, ih]

theorem trimPrefix_append (pre rest : String) : TrimPrefix (pre ++ rest) pre = rest := by
  unfold TrimPrefix
  have h : HasPrefix (pre ++ rest) pre = true := by
    rw [hasPrefix_iff]
    simp
  rw [if_pos h]
  apply String.ext
  simp

theorem slash_not_digit (number : List Char) (h : ∀ c ∈ number, c.isDigit = true) :
    '/' ∉ number := by
  intro hmem
  have := h '/' hmem
  revert this
  decide

theorem apiURL_of_shape (upstreamPR owner repo number : String)
    (h : Shape upstreamPR owner repo number) :
    upstreamURLInAPICompliantFormat upstreamPR =
      .ok ("https://api.github.com/repos/" ++ owner ++ "/" ++ repo ++ "/pulls/" ++ number) := by
  obtain ⟨hs, _, _, _, _, _, hdig⟩ := h
  have hno := slash_not_digit number.data hdig
  have htrim : TrimPrefix upstreamPR githubPrefixForwardSlash =
      owner ++ "/" ++ repo ++ "/pull/" ++ number := by
    have : upstreamPR = githubPrefixForwardSlash ++ (owner ++ "/" ++ repo ++ "/pull/" ++ number) := by
      rw [hs]
      apply String.ext
      simp [githubPrefixForwardSlash]
    rw [this]
    exact trimPrefix_append _ _
  have hdata : ("https://api.github.com/repos/" ++ (owner ++ "/" ++ repo ++ "/pull/" ++ number)).data =
      ("https://api.github.com/repos/".data ++ owner.data ++ "/".data ++ repo.data ++ "/pull".data) ++
        '/' :: number.data := by
    simp
  unfold upstreamURLInAPICompliantFormat
  simp only [htrim]
  rw [hdata, lastIndex_append _ _ _ hno]
  simp only [List.take_left, List.drop_left]
  congr 1
  apply String.ext
  simp

/-! ## The pull-request classifier -/

/-- Claim C2.  For a response body that decodes to a JSON object, the
classification step returns "open" exactly when `state` is the string "open"
and `draft` is the boolean false, "draft" exactly when `state` is "open" and
`draft` is true, "closed" exactly when `state` is "closed" and a boolean `draft`
is present, and an error exactly in every other case; it never panics and never
returns another state. -/
theorem classify_object (upstreamPR : String) (fields : List (String × JVal)) :
    (classify upstreamPR (.obj fields) = .ok "open" ↔
      fields.lookup "state" = some (.str "open") ∧
        fields.lookup "draft" = some (.bool false)) ∧
    (classify upstreamPR (.obj fields) = .ok "draft" ↔
      fields.lookup "state" = some (.str "open") ∧
        fields.lookup "draft" = some (.bool true)) ∧
    (classify upstreamPR (.obj fields) = .ok "closed" ↔
      fields.lookup "state" = some (.str "closed") ∧
        ∃ b, fields.lookup "draft" = some (.bool b)) ∧
    ((∃ e, classify upstreamPR (.obj fields) = .error e) ↔
      ¬ ((fields.lookup "state" = some (.str "open") ∨
            fields.lookup "state" = some (.str "closed")) ∧
          ∃ b, fields.lookup "draft" = some (.bool b))) ∧
    (∀ st, classify upstreamPR (.obj fields) = .ok st →
      st = "open" ∨ st = "draft" ∨ st = "closed") ∧
    (∀ e, classify upstreamPR (.obj fields) ≠ .panic e) := by
  rcases hs : fields.lookup "state" with _ | v
  · simp [classify, hs]
  · cases v with
    | str st =>
      rcases hd : fields.lookup "draft" with _ | d
      · simp [classify, hs, hd]
      · cases d with
        | bool b =>
          by_cases ho : st = "open"
          · subst ho
            cases b <;> simp [classify, hs, hd]
          · by_cases hc : st = "closed"
            · subst hc
              simp [classify, hs, hd]
            · simp [classify, hs, hd, ho, hc]
        | _ => simp [classify, hs, hd]
    | _ => simp [classify, hs]

/-! ## Reference validation -/

/-- Claim C3, as stated, fails: the reference
`https://github.com/openshift-eng/repo/pull/1` has the required shape and its
owner segment `openshift-eng` is not equal to `openshift`, yet the validation
rejects it. -/
theorem isValidUpstreamURL_rejects_openshift_eng :
    Shape "https://github.com/openshift-eng/repo/pull/1" "openshift-eng" "repo" "1" ∧
      "openshift-eng" ≠ "openshift" ∧
      isValidUpstreamURL "https://github.com/openshift-eng/repo/pull/1" = false := by
  unfold Shape
  decide

/-- Claim C3 (amended).  The validation accepts a reference if and only if it has
the shape `https://github.com/<owner>/<repo>/pull/<number>` and its owner segment
does not start with `openshift`; `https://github.com/org/repo/pull/42` is
accepted, `https://github.com/openshift/repo/pull/1` and
`https://github.com/org/repo/issues/1` are rejected. -/
theorem isValidUpstreamURL_iff (upstreamPR : String) :
    (isValidUpstreamURL upstreamPR = true ↔
      ∃ owner repo number : String,
        Shape upstreamPR owner repo number ∧ HasPrefix owner "openshift" = false) ∧
    isValidUpstreamURL "https://github.com/org/repo/pull/42" = true ∧
    isValidUpstreamURL "https://github.com/openshift/repo/pull/1" = false ∧
    isValidUpstreamURL "https://github.com/org/repo/issues/1" = false := by
  refine ⟨?_, by decide, by decide, by decide⟩
  unfold isValidUpstreamURL
  rw [Bool.and_eq_true, matchString_pattern_iff]
  constructor
  · rintro ⟨⟨owner, repo, number, hshape⟩, hpre⟩
    refine ⟨owner, repo, number, hshape, ?_⟩
    rw [hasPrefix_openshift_of_shape _ _ _ _ hshape] at hpre
    simpa using hpre
  · rintro ⟨owner, repo, number, hshape, hpre⟩
    refine ⟨⟨owner, repo, number, hshape⟩, ?_⟩
    rw [hasPrefix_openshift_of_shape _ _ _ _ hshape, hpre]
    rfl

/-- Claim C9.  For a reference of the shape
`https://github.com/<owner>/<repo>/pull/<number>` that the validation accepts,
the request URL is exactly
`https://api.github.com/repos/<owner>/<repo>/pulls/<number>`, and the result of
`getUpstreamPRState` is what the answer to that one URL gives. -/
theorem getUpstreamPRState_requests_api_url (github : String → GHResponse)
    (upstreamPR owner repo number : String)
    (hshape : Shape upstreamPR owner repo number)
    (hvalid : isValidUpstreamURL upstreamPR = true) :
    upstreamURLInAPICompliantFormat upstreamPR =
        .ok ("https://api.github.com/repos/" ++ owner ++ "/" ++ repo ++ "/pulls/" ++ number) ∧
      getUpstreamPRState github upstreamPR =
        fetchUpstreamPRState upstreamPR
          (github ("https://api.github.com/repos/" ++ owner ++ "/" ++ repo ++ "/pulls/" ++ number)) := by
  have hurl := apiURL_of_shape upstreamPR owner repo number hshape
  refine ⟨hurl, ?_⟩
  unfold getUpstreamPRState
  simp [hvalid, hurl]

/-- Witness for claim C9: the reference `https://github.com/org/repo/pull/42`. -/
theorem getUpstreamPRState_requests_api_url_witness :
    upstreamURLInAPICompliantFormat "https://github.com/org/repo/pull/42" =
        .ok "https://api.github.com/repos/org/repo/pulls/42" ∧
      getUpstreamPRState (fun _ => .doError "timeout") "https://github.com/org/repo/pull/42" =
        fetchUpstreamPRState "https://github.com/org/repo/pull/42" (.doError "timeout") :=
  getUpstreamPRState_requests_api_url (fun _ => .doError "timeout")
    "https://github.com/org/repo/pull/42" "org" "repo" "42"
    (by unfold Shape; decide) (by decide)

/-- Claim C10 fails on the code: when the response body is the JSON array `[]`
or the JSON `null`, the unchecked type assertion on `structuredBody` panics;
`getUpstreamPRState` does not return an error.  The same holds for every decoded
body that is not an object. -/
theorem getUpstreamPRState_panics_on_non_object :
    getUpstreamPRState (fun _ => .decoded (.arr [])) "https://github.com/org/repo/pull/42" =
        .panic "interface conversion: structuredBody is not a map[string]interface" ∧
      getUpstreamPRState (fun _ => .decoded .null) "https://github.com/org/repo/pull/42" =
        .panic "interface conversion: structuredBody is not a map[string]interface" ∧
      ∀ (upstreamPR : String) (body : JVal), (∀ fields, body ≠ .obj fields) →
        classify upstreamPR body =
          .panic "interface conversion: structuredBody is not a map[string]interface" := by
  refine ⟨by decide, by decide, ?_⟩
  intro upstreamPR body hbody
  cases body with
  | obj fields => exact absurd rfl (hbody fields)
  | _ => rfl

/-! ## Overrides -/

/-- Claim C6 fails on the code: `respectOverrides` never touches
`mapGitHubToJIRAState`, which keeps the values it got at package
initialisation.  With `PROJECT_FINAL_STATE=Review` the configured Final name is
`Review` while the mapping still sends `open` to `Code Review`, which is none of
the three configured names. -/
theorem respectOverrides_leaves_mapping_stale :
    (∀ (lookupEnv : String → Option String) (r : Runner),
      (respectOverrides lookupEnv r initGlobals).2.mapGitHubToJIRAState =
        initGlobals.mapGitHubToJIRAState) ∧
    (let g := (respectOverrides
        (fun name => if name = "PROJECT_FINAL_STATE" then some "Review" else none)
        ⟨none, []⟩ initGlobals).2
     g.ProjectFinalState = "Review" ∧
     mapIndex g.mapGitHubToJIRAState "open" = "Code Review" ∧
     mapIndex g.mapGitHubToJIRAState "open" ∉
       [g.ProjectInitialState, g.ProjectIntermediateState, g.ProjectFinalState]) := by
  refine ⟨?_, by decide⟩
  intro lookupEnv r
  unfold respectOverrides
  cases lookupEnv "PROJECT_UPSTREAM_ISSUES_JQL_FILTER" <;>
    cases lookupEnv "PROJECT_INITIAL_STATE" <;>
    cases lookupEnv "PROJECT_INTERMEDIATE_STATE" <;>
    cases lookupEnv "PROJECT_FINAL_STATE" <;> rfl

/-! ## The loop over the linked pull requests -/

theorem countLinkedPRs_ok (g : Globals) (w : World) (issue : Issue) (jiraMirrorState : String)
    (prs : List String) (st : LoopState)
    (hok : ∀ pr ∈ prs, (getUpstreamPRState w.github pr).isOk = true) :
    ∃ st', countLinkedPRs g w issue jiraMirrorState (prs.map JVal.str) st = (.ok (), st') ∧
      st'.classified = st.classified ++ prs ∧
      ∀ k, (1 ≤ st'.observedJIRAStates k ↔
        1 ≤ st.observedJIRAStates k ∨
          ∃ pr ∈ prs, ∃ s, getUpstreamPRState w.github pr = .ok s ∧
            mapIndex g.mapGitHubToJIRAState s = k) := by
  induction prs generalizing st with
  | nil => exact ⟨st, rfl, by simp, by simp⟩
  | cons pr prs ih =>
    have hpr := hok pr (List.mem_cons_self _ _)
    rcases hs : getUpstreamPRState w.github pr with s | e | e
    · have hrest : ∀ q ∈ prs, (getUpstreamPRState w.github q).isOk = true :=
        fun q hq => hok q (List.mem_cons_of_mem _ hq)
      simp only [List.map_cons, countLinkedPRs, hs]
      obtain ⟨st', hrun, hcls, hobs⟩ := ih _ hrest
      refine ⟨st', hrun, ?_, ?_⟩
      · rw [hcls]; simp
      · intro k
        rw [hobs k]
        simp only [increment, List.mem_cons, exists_eq_or_imp, hs, Outcome.ok.injEq,
          exists_eq_left']
        by_cases hk : k = mapIndex g.mapGitHubToJIRAState s
        · subst hk
          simp
        · have hk2 : ¬ mapIndex g.mapGitHubToJIRAState s = k := fun h => hk h.symm
          simp only [hk, hk2, if_false, false_or]
    · rw [hs] at hpr; exact absurd hpr (by simp [Outcome.isOk])
    · rw [hs] at hpr; exact absurd hpr (by simp [Outcome.isOk])

theorem classify_ok_range (upstreamPR : String) (body : JVal) (s : String)
    (h : classify upstreamPR body = .ok s) : s = "open" ∨ s = "draft" ∨ s = "closed" := by
  unfold classify at h
  split at h
  · split at h
    · split at h
      · split at h
        · split at h <;> simp at h <;> simp [← h]
        · split at h
          · simp at h; simp [← h]
          · simp at h
      · simp at h
    · simp at h
  · simp at h

theorem getUpstreamPRState_ok_range (github : String → GHResponse) (upstreamPR s : String)
    (h : getUpstreamPRState github upstreamPR = .ok s) :
    s = "open" ∨ s = "draft" ∨ s = "closed" := by
  unfold getUpstreamPRState at h
  split at h
  · simp at h
  · split at h
    · rename_i url _
      unfold fetchUpstreamPRState at h
      split at h
      · simp at h
      · simp at h
      · simp at h
      · simp at h
      · exact classify_ok_range _ _ _ h
    · simp at h
    · simp at h

theorem legality_passes (g : Globals) (w : World) (possibleStates : List String)
    (hrange : ∀ keys, (w.rangeOrder keys).Perm keys)
    (hall : ∀ state ∈ definedStates g, state ∈ possibleStates) :
    (w.rangeOrder (definedStates g)).find? (fun state => !possibleStates.contains state) = none := by
  rw [List.find?_eq_none]
  intro state hstate
  have := hall state ((hrange _).mem_iff.mp hstate)
  simp [this]

theorem mapIndex_default (s : String) :
    (mapIndex initGlobals.mapGitHubToJIRAState s = "Code Review" ↔ s = "open") ∧
    (mapIndex initGlobals.mapGitHubToJIRAState s = "In Progress" ↔ s = "draft") := by
  have hm : initGlobals.mapGitHubToJIRAState =
      [("open", "Code Review"), ("draft", "In Progress"), ("closed", "To Do")] := rfl
  rw [hm]
  by_cases h1 : s = "open"
  · subst h1; decide
  · by_cases h2 : s = "draft"
    · subst h2; decide
    · by_cases h3 : s = "closed"
      · subst h3; decide
      · have e1 : (s == "open") = false := by simpa using h1
        have e2 : (s == "draft") = false := by simpa using h2
        have e3 : (s == "closed") = false := by simpa using h3
        simp [mapIndex, List.lookup, e1, e2, e3, h1, h2]

/-! ## The resolved state -/

/-- Claim C1.  With the default target-state names, for a ticket that passes the
legality check and a list of linked pull requests that all classify
successfully, the call succeeds and the resolved state is "Code Review" if some
pull request classifies as open, otherwise "In Progress" if some classifies as
draft, otherwise "To Do", and in that last case every pull request is closed.
How many pull requests of each kind there are plays no role (the statement
needs no assumption on the length of the list). -/
theorem resolved_precedence (w : World) (r : Runner) (issue : Issue)
    (possibleStates : List String) (upstreamPRs : List String)
    (hrange : ∀ keys, (w.rangeOrder keys).Perm keys)
    (htransitions : w.GetTransitions issue.ID = .ok possibleStates)
    (hlegal : "To Do" ∈ possibleStates ∧ "In Progress" ∈ possibleStates ∧
      "Code Review" ∈ possibleStates)
    (hlinks : issue.Fields.Unknowns.lookup "customfield_12310220" =
      some (.arr (upstreamPRs.map JVal.str)))
    (hok : ∀ pr ∈ upstreamPRs, (getUpstreamPRState w.github pr).isOk = true) :
    (verifyIssueState initGlobals w r issue).result = .ok () ∧
    (verifyIssueState initGlobals w r issue).resolvedJIRAState =
      some (if ∃ pr ∈ upstreamPRs, getUpstreamPRState w.github pr = .ok "open" then "Code Review"
        else if ∃ pr ∈ upstreamPRs, getUpstreamPRState w.github pr = .ok "draft" then "In Progress"
        else "To Do") ∧
    ((¬ ∃ pr ∈ upstreamPRs, getUpstreamPRState w.github pr = .ok "open") →
      (¬ ∃ pr ∈ upstreamPRs, getUpstreamPRState w.github pr = .ok "draft") →
      ∀ pr ∈ upstreamPRs, getUpstreamPRState w.github pr = .ok "closed") := by
  have hdef : ∀ state ∈ definedStates initGlobals, state ∈ possibleStates := by
    intro state hstate
    have hmem : state ∈ ["Code Review", "In Progress", "To Do"] := by
      have : definedStates initGlobals = ["Code Review", "In Progress", "To Do"] := by decide
      rw [this] at hstate
      exact hstate
    simp only [List.mem_cons, List.mem_singleton, List.not_mem_nil, or_false] at hmem
    rcases hmem with h | h | h
    · rw [h]; exact hlegal.2.2
    · rw [h]; exact hlegal.2.1
    · rw [h]; exact hlegal.1
  have hleg := legality_passes initGlobals w possibleStates hrange hdef
  obtain ⟨st, hrun, _, hobs⟩ := countLinkedPRs_ok initGlobals w issue issue.Fields.Status
    upstreamPRs { observedJIRAStates := fun _ => 0, logger := r.logger, classified := [] } hok
  have hfinal : (1 ≤ st.observedJIRAStates "Code Review") ↔
      ∃ pr ∈ upstreamPRs, getUpstreamPRState w.github pr = .ok "open" := by
    rw [hobs]
    simp only [(mapIndex_default _).1]
    constructor
    · rintro (h | ⟨pr, hpr, s, hs, hso⟩)
      · exact absurd h (by decide)
      · exact ⟨pr, hpr, hso ▸ hs⟩
    · rintro ⟨pr, hpr, hs⟩
      exact Or.inr ⟨pr, hpr, "open", hs, rfl⟩
  have hinter : (1 ≤ st.observedJIRAStates "In Progress") ↔
      ∃ pr ∈ upstreamPRs, getUpstreamPRState w.github pr = .ok "draft" := by
    rw [hobs]
    simp only [(mapIndex_default _).2]
    constructor
    · rintro (h | ⟨pr, hpr, s, hs, hso⟩)
      · exact absurd h (by decide)
      · exact ⟨pr, hpr, hso ▸ hs⟩
    · rintro ⟨pr, hpr, hs⟩
      exact Or.inr ⟨pr, hpr, "draft", hs, rfl⟩
  have hv : verifyIssueState initGlobals w r issue =
      { result := .ok ()
        runner := reportDrift { r with logger := st.logger } issue
          (resolve initGlobals st.observedJIRAStates) issue.Fields.Status
        classified := st.classified
        resolvedJIRAState := some (resolve initGlobals st.observedJIRAStates) } := by
    unfold verifyIssueState
    simp only [htransitions, hleg, hlinks, hrun]
  rw [hv]
  refine ⟨rfl, ?_, ?_⟩
  · have hres : resolve initGlobals st.observedJIRAStates =
        if 1 ≤ st.observedJIRAStates "Code Review" then "Code Review"
        else if 1 ≤ st.observedJIRAStates "In Progress" then "In Progress" else "To Do" := rfl
    simp only [hres, hfinal, hinter]
  · intro hno hnd pr hpr
    have hokpr := hok pr hpr
    rcases hs : getUpstreamPRState w.github pr with s | e | e
    · rcases getUpstreamPRState_ok_range _ _ _ hs with h | h | h
      · exact absurd ⟨pr, hpr, h ▸ hs⟩ hno
      · exact absurd ⟨pr, hpr, h ▸ hs⟩ hnd
      · rw [h]
    · rw [hs] at hokpr; exact absurd hokpr (by simp [Outcome.isOk])
    · rw [hs] at hokpr; exact absurd hokpr (by simp [Outcome.isOk])

/-- Witness for claim C1: ticket `MON-1` in state "To Do" with the linked pull
requests 1 (closed) and 3 (draft) of `org/repo`. -/
theorem resolved_precedence_witness :
    (verifyIssueState initGlobals (scenarioWorld defaultTransitions) ⟨none, []⟩
      (scenarioIssue "To Do" (some (.arr (["https://github.com/org/repo/pull/1",
        "https://github.com/org/repo/pull/3"].map JVal.str))))).resolvedJIRAState =
      some "In Progress" :=
  (resolved_precedence (scenarioWorld defaultTransitions) ⟨none, []⟩
    (scenarioIssue "To Do" (some (.arr (["https://github.com/org/repo/pull/1",
        "https://github.com/org/repo/pull/3"].map JVal.str))))
    defaultTransitions
    ["https://github.com/org/repo/pull/1", "https://github.com/org/repo/pull/3"]
    (fun _ => List.Perm.refl _) rfl (by decide) rfl (by decide)).2.1.trans
    (by decide)

/-! ## Drift records -/

set_option maxRecDepth 8000

/-- Every call either fails (error or panic) without a resolved state and with
the buffer untouched, or succeeds with a resolved state and reports the drift. -/
theorem verifyIssueState_cases (g : Globals) (w : World) (r : Runner) (issue : Issue) :
    (((∃ e, (verifyIssueState g w r issue).result = .error e) ∨
        (∃ e, (verifyIssueState g w r issue).result = .panic e)) ∧
      (verifyIssueState g w r issue).resolvedJIRAState = none ∧
      (verifyIssueState g w r issue).runner.payloadJSON = r.payloadJSON) ∨
    (∃ resolved logger,
      (verifyIssueState g w r issue).result = .ok () ∧
      (verifyIssueState g w r issue).resolvedJIRAState = some resolved ∧
      (verifyIssueState g w r issue).runner =
        reportDrift ⟨r.payloadJSON, logger⟩ issue resolved issue.Fields.Status) := by
  unfold verifyIssueState
  rcases w.GetTransitions issue.ID with e | possibleStates
  · simp
  · dsimp only
    rcases (w.rangeOrder (definedStates g)).find? (fun state => !possibleStates.contains state)
      with _ | state
    · dsimp only
      rcases issue.Fields.Unknowns.lookup "customfield_12310220" with _ | links
      · simp
      · cases links with
        | arr upstreamPRRawList =>
          dsimp only
          rcases countLinkedPRs g w issue issue.Fields.Status upstreamPRRawList
            { observedJIRAStates := fun _ => 0, logger := r.logger, classified := [] }
            with ⟨o, st⟩
          cases o with
          | ok u => exact Or.inr ⟨_, _, rfl, rfl, rfl⟩
          | error e => simp
          | panic e => simp
        | _ => simp
    · simp

theorem reportDrift_payload (r : Runner) (issue : Issue) (resolved current : String) :
    (reportDrift r issue resolved current).payloadJSON =
      match r.payloadJSON with
      | some payload =>
        if resolved = current then some payload
        else some (payload ++ bullet issue resolved current)
      | none => none := by
  unfold reportDrift
  by_cases h : resolved = current
  · subst h
    cases hp : r.payloadJSON <;> simp [hp]
  · have hne : (current != resolved) = true := by
      simpa using fun e => h e.symm
    cases hp : r.payloadJSON <;> simp [hp, hne, h]

theorem bullet_unassigned (issue : Issue) (resolved current : String)
    (h : issue.Fields.Assignee = none) :
    bullet issue resolved current =
      "* [" ++ issue.Fields.Summary ++ "](https://issues.redhat.com/browse/" ++ issue.Key ++
        "), assigned to NO ASSIGNEE: Expected issue state to be '" ++ resolved ++
        "', but got '" ++ current ++ "'.\\n" := by
  unfold bullet assigneeInformation toIssueURL RH_JIRA_INSTANCE_URL
  rw [h]
  apply String.ext
  simp

theorem bullet_assigned (issue : Issue) (resolved current : String) (a : User)
    (h : issue.Fields.Assignee = some a) :
    bullet issue resolved current =
      "* [" ++ issue.Fields.Summary ++ "](https://issues.redhat.com/browse/" ++ issue.Key ++
        "), assigned to [" ++ a.DisplayName ++ "](mailto:" ++ a.EmailAddress ++
        "): Expected issue state to be '" ++ resolved ++
        "', but got '" ++ current ++ "'.\\n" := by
  unfold bullet assigneeInformation toIssueURL RH_JIRA_INSTANCE_URL
  rw [h]
  apply String.ext
  simp

/-- Claim C7.  One call of `verifyIssueState` with a non-nil buffer, when it
succeeds with a resolved state different from the current state, extends the
buffer by exactly one bullet, whose text is spelled out here: the summary, the
link `https://issues.redhat.com/browse/<key>`, the assignee as
`[<name>](mailto:<address>)` or "NO ASSIGNEE" when there is none, the resolved
state as the expected one and the current state as the observed one.  The
buffer stays as it was when the resolved state equals the current state or
when the call returns an error; with a nil buffer nothing is accumulated.  A
successful call always has a resolved state.  With the default names: the
unassigned ticket `MON-1` in "To Do" with a closed and an open pull request
gives a record with expected "Code Review" and observed "To Do"; the ticket
`MON-2` assigned to Ada, in "In Progress" with a draft and an open pull
request, gives a record naming her; `MON-1` in "Code Review" with one open
pull request gives none. -/
theorem verifyIssueState_drift (g : Globals) (w : World) (r : Runner) (issue : Issue) :
    (r.payloadJSON = none → (verifyIssueState g w r issue).runner.payloadJSON = none) ∧
    (∀ payload, r.payloadJSON = some payload →
      (∀ resolved, (verifyIssueState g w r issue).result = .ok () →
        (verifyIssueState g w r issue).resolvedJIRAState = some resolved →
        resolved ≠ issue.Fields.Status →
        (issue.Fields.Assignee = none →
          (verifyIssueState g w r issue).runner.payloadJSON =
            some (payload ++ ("* [" ++ issue.Fields.Summary ++
              "](https://issues.redhat.com/browse/" ++ issue.Key ++
              "), assigned to NO ASSIGNEE: Expected issue state to be '" ++ resolved ++
              "', but got '" ++ issue.Fields.Status ++ "'.\\n"))) ∧
        (∀ a, issue.Fields.Assignee = some a →
          (verifyIssueState g w r issue).runner.payloadJSON =
            some (payload ++ ("* [" ++ issue.Fields.Summary ++
              "](https://issues.redhat.com/browse/" ++ issue.Key ++
              "), assigned to [" ++ a.DisplayName ++ "](mailto:" ++ a.EmailAddress ++
              "): Expected issue state to be '" ++ resolved ++
              "', but got '" ++ issue.Fields.Status ++ "'.\\n")))) ∧
      ((verifyIssueState g w r issue).result = .ok () →
        (verifyIssueState g w r issue).resolvedJIRAState = some issue.Fields.Status →
        (verifyIssueState g w r issue).runner.payloadJSON = some payload) ∧
      (∀ e, (verifyIssueState g w r issue).result = .error e →
        (verifyIssueState g w r issue).runner.payloadJSON = some payload)) ∧
    ((verifyIssueState g w r issue).result = .ok () →
      ∃ resolved, (verifyIssueState g w r issue).resolvedJIRAState = some resolved) ∧
    (verifyIssueState initGlobals (scenarioWorld defaultTransitions) ⟨some "", []⟩
      (scenarioIssue "To Do" (some (.arr [.str "https://github.com/org/repo/pull/1",
        .str "https://github.com/org/repo/pull/2"])))).runner.payloadJSON =
      some ("* [Fix alerts](https://issues.redhat.com/browse/MON-1), assigned to NO ASSIGNEE: " ++
        "Expected issue state to be 'Code Review', but got 'To Do'.\\n") ∧
    (verifyIssueState initGlobals (scenarioWorld defaultTransitions) ⟨some "* earlier\\n", []⟩
      (scenarioAssignedIssue "In Progress" ["https://github.com/org/repo/pull/3",
        "https://github.com/org/repo/pull/2"])).runner.payloadJSON =
      some ("* earlier\\n" ++
        "* [Tune rules](https://issues.redhat.com/browse/MON-2), assigned to " ++
        "[Ada](mailto:ada@example.com): " ++
        "Expected issue state to be 'Code Review', but got 'In Progress'.\\n") ∧
    (verifyIssueState initGlobals (scenarioWorld defaultTransitions) ⟨some "", []⟩
      (scenarioIssue "Code Review"
        (some (.arr [.str "https://github.com/org/repo/pull/2"])))).runner.payloadJSON =
      some "" := by
  refine ⟨?_, ?_, ?_, by decide, by decide, by decide⟩
  · intro hnone
    rcases verifyIssueState_cases g w r issue with ⟨_, _, hp⟩ | ⟨resolved, logger, _, _, hrun⟩
    · rw [hp, hnone]
    · rw [hrun, reportDrift_payload]
      simp only [hnone]
  · intro payload hsome
    rcases verifyIssueState_cases g w r issue with ⟨hfail, hres, hp⟩ | ⟨resolved, logger, hok, hres, hrun⟩
    · refine ⟨?_, ?_, ?_⟩
      · intro resolved _ h
        rw [hres] at h
        exact absurd h (by simp)
      · intro _ h
        rw [hres] at h
        exact absurd h (by simp)
      · intro e _
        rw [hp, hsome]
    · have hpay := reportDrift_payload ⟨r.payloadJSON, logger⟩ issue resolved issue.Fields.Status
      simp only [hsome] at hpay
      refine ⟨?_, ?_, ?_⟩
      · intro resolved2 _ h hne
        rw [hres, Option.some.injEq] at h
        subst h
        refine ⟨?_, ?_⟩
        · intro hnone
          rw [hrun, hsome, hpay, if_neg hne, bullet_unassigned _ _ _ hnone]
        · intro a ha
          rw [hrun, hsome, hpay, if_neg hne, bullet_assigned _ _ _ a ha]
      · intro _ h
        rw [hres, Option.some.injEq] at h
        rw [hrun, hsome, hpay, if_pos h]
      · intro e he
        rw [hok] at he
        exact absurd he (by simp)
  · intro hok
    rcases verifyIssueState_cases g w r issue with ⟨hfail, _, _⟩ | ⟨resolved, _, _, hres, _⟩
    · rcases hfail with ⟨e, he⟩ | ⟨e, he⟩
      · rw [hok] at he
        exact absurd he (by simp)
      · rw [hok] at he
        exact absurd he (by simp)
    · exact ⟨resolved, hres⟩

/-- Witness for claim C7: the ticket `MON-2`, assigned to Ada, in state
"In Progress" with a draft and an open pull request, default names, a buffer
that already holds one bullet. -/
theorem verifyIssueState_drift_witness :
    (verifyIssueState initGlobals (scenarioWorld defaultTransitions) ⟨some "* earlier\\n", []⟩
      (scenarioAssignedIssue "In Progress" ["https://github.com/org/repo/pull/3",
        "https://github.com/org/repo/pull/2"])).runner.payloadJSON =
      some ("* earlier\\n" ++ ("* [" ++ "Tune rules" ++
        "](https://issues.redhat.com/browse/" ++ "MON-2" ++
        "), assigned to [" ++ "Ada" ++ "](mailto:" ++ "ada@example.com" ++
        "): Expected issue state to be '" ++ "Code Review" ++
        "', but got '" ++ "In Progress" ++ "'.\\n")) :=
  (((verifyIssueState_drift initGlobals (scenarioWorld defaultTransitions)
      ⟨some "* earlier\\n", []⟩
      (scenarioAssignedIssue "In Progress" ["https://github.com/org/repo/pull/3",
        "https://github.com/org/repo/pull/2"])).2.1 "* earlier\\n" rfl).1 "Code Review"
    (by decide) (by decide) (by decide)).2
    { DisplayName := "Ada", EmailAddress := "ada@example.com" } rfl

/-! ## Tickets without linked pull requests -/

/-- The guard `if !found` does its work when the field is absent: the call
returns an error, leaves the runner (buffer and log) as it was and classifies no
pull request, whatever the current state; when the transitions are obtained and
hold every state of the mapping, the error is the "no linked PRs" error. -/
theorem verifyIssueState_absent_links (g : Globals) (w : World) (r : Runner) (issue : Issue)
    (habsent : issue.Fields.Unknowns.lookup "customfield_12310220" = none) :
    (∃ e, (verifyIssueState g w r issue).result = .error e) ∧
    (verifyIssueState g w r issue).runner = r ∧
    (verifyIssueState g w r issue).classified = [] ∧
    (∀ possibleStates, w.GetTransitions issue.ID = .ok possibleStates →
      (∀ keys, (w.rangeOrder keys).Perm keys) →
      (∀ state ∈ definedStates g, state ∈ possibleStates) →
      (verifyIssueState g w r issue).result =
        .error ("no linked PRs found for: " ++ issue.Key)) := by
  refine ⟨?_, ?_, ?_, ?_⟩
  · unfold verifyIssueState
    rcases w.GetTransitions issue.ID with e | possibleStates
    · exact ⟨_, rfl⟩
    · dsimp only
      rcases (w.rangeOrder (definedStates g)).find? (fun state => !possibleStates.contains state)
        with _ | state
      · simp only [habsent]
        exact ⟨_, rfl⟩
      · exact ⟨_, rfl⟩
  · unfold verifyIssueState
    rcases w.GetTransitions issue.ID with e | possibleStates
    · rfl
    · dsimp only
      rcases (w.rangeOrder (definedStates g)).find? (fun state => !possibleStates.contains state)
        with _ | state
      · simp only [habsent]
      · rfl
  · unfold verifyIssueState
    rcases w.GetTransitions issue.ID with e | possibleStates
    · rfl
    · dsimp only
      rcases (w.rangeOrder (definedStates g)).find? (fun state => !possibleStates.contains state)
        with _ | state
      · simp only [habsent]
      · rfl
  · intro possibleStates htransitions hrange hall
    have hleg := legality_passes g w possibleStates hrange hall
    unfold verifyIssueState
    simp only [htransitions, hleg, habsent]

/-- Claim C4 fails on the code when the linked-PR field is present as an empty
list.  The ticket `MON-1`, in state "In Progress", passing the legality check
and with `customfield_12310220 = []`, has zero linked pull requests, yet the
call returns nil instead of the "no linked PRs" error: the guard only tests
whether the field was found, the loop runs zero times, no pull request is
classified, the state resolves to "To Do" and a drift record is appended to
the buffer. -/
theorem verifyIssueState_empty_links_reports_drift :
    (verifyIssueState initGlobals (scenarioWorld defaultTransitions) ⟨some "", []⟩
      (scenarioIssue "In Progress" (some (.arr [])))).result = .ok () ∧
    (verifyIssueState initGlobals (scenarioWorld defaultTransitions) ⟨some "", []⟩
      (scenarioIssue "In Progress" (some (.arr [])))).classified = [] ∧
    (verifyIssueState initGlobals (scenarioWorld defaultTransitions) ⟨some "", []⟩
      (scenarioIssue "In Progress" (some (.arr [])))).resolvedJIRAState = some "To Do" ∧
    (verifyIssueState initGlobals (scenarioWorld defaultTransitions) ⟨some "", []⟩
      (scenarioIssue "In Progress" (some (.arr [])))).runner.payloadJSON =
      some ("* [Fix alerts](https://issues.redhat.com/browse/MON-1), assigned to NO ASSIGNEE: " ++
        "Expected issue state to be 'To Do', but got 'In Progress'.\\n") ∧
    (verifyIssueState initGlobals (scenarioWorld defaultTransitions) ⟨some "", []⟩
      (scenarioIssue "In Progress" none)).result = .error "no linked PRs found for: MON-1" := by
  decide

/-! ## The legality check under overrides -/

/-- Claim C5 fails on the code once a name is overridden: the legality check
reads the values of `mapGitHubToJIRAState`, which are still the defaults.  With
`PROJECT_FINAL_STATE=Review` and the permitted transitions "To Do",
"In Progress", "Code Review" (the configured Final name `Review` is missing),
the call returns no error, classifies the linked pull request, and resolves to
"To Do" although that pull request is open. -/
theorem verifyIssueState_override_skips_legality :
    (respectOverrides scenarioEnv ⟨none, []⟩ initGlobals).2.ProjectFinalState = "Review" ∧
    "Review" ∉ defaultTransitions ∧
    (verifyIssueState (respectOverrides scenarioEnv ⟨none, []⟩ initGlobals).2
      (scenarioWorld defaultTransitions) ⟨none, []⟩
      (scenarioIssue "To Do" (some (.arr [.str "https://github.com/org/repo/pull/2"])))).result =
      .ok () ∧
    (verifyIssueState (respectOverrides scenarioEnv ⟨none, []⟩ initGlobals).2
      (scenarioWorld defaultTransitions) ⟨none, []⟩
      (scenarioIssue "To Do" (some (.arr [.str "https://github.com/org/repo/pull/2"])))).classified =
      ["https://github.com/org/repo/pull/2"] ∧
    (verifyIssueState (respectOverrides scenarioEnv ⟨none, []⟩ initGlobals).2
      (scenarioWorld defaultTransitions) ⟨none, []⟩
      (scenarioIssue "To Do"
        (some (.arr [.str "https://github.com/org/repo/pull/2"])))).resolvedJIRAState =
      some "To Do" := by
  decide

/-! ## Pagination -/

theorem requestsBefore_length (pg : Nat → List Issue) (n : Nat) :
    (requestsBefore pg n).length = n := by
  induction n with
  | zero => rfl
  | succ n ih => simp [requestsBefore, ih]

theorem getIssuesLoop_step (search : Nat → String → SearchOptions → SearchResponse)
    (jql : String) (pg : Nat → List Issue) (tot : Nat → Int) (j fuel : Nat)
    (hpage : search j jql { StartAt := fetchedBefore pg j, MaxResults := 1000 } =
      .page (pg j) (tot j))
    (hmore : ((fetchedBefore pg (j + 1) : Nat) : Int) < tot j) :
    getIssuesLoop search jql (fuel + 1) (pagesBefore pg j) (fetchedBefore pg j)
        (requestsBefore pg j) =
      getIssuesLoop search jql fuel (pagesBefore pg (j + 1)) (fetchedBefore pg (j + 1))
        (requestsBefore pg (j + 1)) := by
  have hnot : ¬ (((fetchedBefore pg j + (pg j).length : Nat) : Int) ≥ tot j) := by
    have : fetchedBefore pg (j + 1) = fetchedBefore pg j + (pg j).length := rfl
    rw [this] at hmore
    omega
  rw [getIssuesLoop]
  simp only [requestsBefore_length, JIRA_API_MAX_RESULTS_LIMIT, hpage, if_neg hnot]
  rfl

theorem getIssuesLoop_prefix (search : Nat → String → SearchOptions → SearchResponse)
    (jql : String) (pg : Nat → List Issue) (tot : Nat → Int) (k : Nat)
    (hpages : ∀ i < k, search i jql { StartAt := fetchedBefore pg i, MaxResults := 1000 } =
      .page (pg i) (tot i))
    (hmore : ∀ i < k, ((fetchedBefore pg (i + 1) : Nat) : Int) < tot i) :
    ∀ j ≤ k, ∀ fuel, getIssuesLoop search jql (fuel + j) [] 0 [] =
      getIssuesLoop search jql fuel (pagesBefore pg j) (fetchedBefore pg j)
        (requestsBefore pg j) := by
  intro j
  induction j with
  | zero => intro _ fuel; rfl
  | succ j ih =>
    intro hj fuel
    have hlt : j < k := hj
    have h1 := ih (Nat.le_of_lt hlt) (fuel + 1)
    have h2 := getIssuesLoop_step search jql pg tot j fuel (hpages j hlt) (hmore j hlt)
    have hf : fuel + (j + 1) = fuel + 1 + j := by omega
    rw [hf, h1, h2]

theorem getIssues_run (search : Nat → String → SearchOptions → SearchResponse)
    (jql : String) (pg : Nat → List Issue) (tot : Nat → Int) (k : Nat) (last : SearchResponse)
    (hpages : ∀ i < k, search i jql { StartAt := fetchedBefore pg i, MaxResults := 1000 } =
      .page (pg i) (tot i))
    (hmore : ∀ i < k, ((fetchedBefore pg (i + 1) : Nat) : Int) < tot i)
    (hlast : search k jql { StartAt := fetchedBefore pg k, MaxResults := 1000 } = last)
    (hstop : ∀ gotIssues Total, last = .page gotIssues Total →
      Total ≤ ((fetchedBefore pg k + gotIssues.length : Nat) : Int))
    (fuel : Nat) (hfuel : k < fuel) :
    getIssues search jql fuel = some (fetchedAfter pg k last) := by
  obtain ⟨f, hf⟩ : ∃ f, fuel = f + 1 + k := ⟨fuel - 1 - k, by omega⟩
  unfold getIssues
  rw [hf, getIssuesLoop_prefix search jql pg tot k hpages hmore k (Nat.le_refl _) (f + 1),
    getIssuesLoop]
  simp only [requestsBefore_length, JIRA_API_MAX_RESULTS_LIMIT, hlast]
  cases last with
  | error e => rfl
  | page gotIssues Total =>
    have h := hstop gotIssues Total rfl
    simp only [ge_iff_le, h, if_true]
    rfl

theorem fetchedBefore_grows (pg : Nat → List Issue) (T : Nat)
    (hne : ∀ i, fetchedBefore pg i < T → pg i ≠ []) (i : Nat) :
    min i T ≤ fetchedBefore pg i := by
  induction i with
  | zero => simp
  | succ i ih =>
    have hstep : fetchedBefore pg (i + 1) = fetchedBefore pg i + (pg i).length := rfl
    by_cases hlt : fetchedBefore pg i < T
    · have hpos : 0 < (pg i).length := List.length_pos.mpr (hne i hlt)
      rw [hstep]
      omega
    · rw [hstep]
      omega

/-- Claim C8.  First part: when the pages before page `k` are returned without
error and none of them brings the cumulative count up to the total reported
with it, and page `k` either fails or brings the count up to its total, then
`getIssues` (given more than `k` iterations) makes exactly the requests for
pages `0` to `k`, each with `maxResults` 1000 and a start offset equal to the
number of tickets of the earlier pages, and returns the concatenation of the
pages `0` to `k` with a nil error, or, when page `k` failed, an error and no
ticket at all.  Second part: when the backend reports the total `T` and every
page fetched while the cumulative count is below `T` is non-empty, such a last
page `k ≤ T` exists: the loop ends after the first page at which the cumulative
count reaches `T` and returns the concatenation of the pages up to it. -/
theorem getIssues_paginates :
    (∀ (search : Nat → String → SearchOptions → SearchResponse) (jql : String)
        (pg : Nat → List Issue) (tot : Nat → Int) (k : Nat) (last : SearchResponse),
      (∀ i < k, search i jql { StartAt := fetchedBefore pg i, MaxResults := 1000 } =
        .page (pg i) (tot i)) →
      (∀ i < k, ((fetchedBefore pg (i + 1) : Nat) : Int) < tot i) →
      search k jql { StartAt := fetchedBefore pg k, MaxResults := 1000 } = last →
      (∀ gotIssues Total, last = .page gotIssues Total →
        Total ≤ ((fetchedBefore pg k + gotIssues.length : Nat) : Int)) →
      ∀ fuel, k < fuel → getIssues search jql fuel = some (fetchedAfter pg k last)) ∧
    (∀ (search : Nat → String → SearchOptions → SearchResponse) (jql : String)
        (pg : Nat → List Issue) (T : Nat),
      (∀ i, search i jql { StartAt := fetchedBefore pg i, MaxResults := 1000 } =
        .page (pg i) T) →
      (∀ i, fetchedBefore pg i < T → pg i ≠ []) →
      ∃ k, k ≤ T ∧ (∀ i < k, fetchedBefore pg (i + 1) < T) ∧ T ≤ fetchedBefore pg (k + 1) ∧
        ∀ fuel, k < fuel → getIssues search jql fuel =
          some { issues := pagesBefore pg (k + 1), err := none
                 requests := requestsBefore pg (k + 1) }) := by
  constructor
  · intro search jql pg tot k last hpages hmore hlast hstop fuel hfuel
    exact getIssues_run search jql pg tot k last hpages hmore hlast hstop fuel hfuel
  · intro search jql pg T hresp hne
    have hex : ∃ k, T ≤ fetchedBefore pg (k + 1) := by
      refine ⟨T, ?_⟩
      have h1 := fetchedBefore_grows pg T hne T
      have h2 : fetchedBefore pg (T + 1) = fetchedBefore pg T + (pg T).length := rfl
      rw [h2]
      simp only [min_self] at h1
      omega
    classical
    refine ⟨Nat.find hex, ?_, ?_, Nat.find_spec hex, ?_⟩
    · apply Nat.find_min' hex
      have h1 := fetchedBefore_grows pg T hne T
      have h2 : fetchedBefore pg (T + 1) = fetchedBefore pg T + (pg T).length := rfl
      rw [h2]
      simp only [min_self] at h1
      omega
    · intro i hi
      exact Nat.lt_of_not_le (Nat.find_min hex hi)
    · intro fuel hfuel
      have hrun := getIssues_run search jql pg (fun _ => (T : Int)) (Nat.find hex)
        (.page (pg (Nat.find hex)) T) (fun i _ => hresp i)
        (fun i hi => by
          have := Nat.lt_of_not_le (Nat.find_min hex hi)
          show ((fetchedBefore pg (i + 1) : Nat) : Int) < (T : Int)
          exact_mod_cast this)
        (hresp _)
        (fun gotIssues Total h => by
          simp only [SearchResponse.page.injEq] at h
          obtain ⟨h1, h2⟩ := h
          rw [← h1, ← h2]
          have := Nat.find_spec hex
          have h3 : fetchedBefore pg (Nat.find hex + 1) =
            fetchedBefore pg (Nat.find hex) + (pg (Nat.find hex)).length := rfl
          rw [h3] at this
          exact_mod_cast this)
        fuel hfuel
      rw [hrun]
      rfl

/-- Witness for claim C8.  A tracker with total 2 and one ticket per page: two
requests at offsets 0 and 1, both pages returned.  A tracker whose second
request fails: an error and no ticket. -/
theorem getIssues_paginates_witness :
    (∃ k, k ≤ 2 ∧ ∀ fuel, k < fuel → getIssues scenarioSearch "project = MON" fuel =
      some { issues := pagesBefore (fun _ => [scenarioIssue "To Do" none]) (k + 1), err := none
             requests := requestsBefore (fun _ => [scenarioIssue "To Do" none]) (k + 1) }) ∧
    getIssues scenarioFailingSearch "project = MON" 5 =
      some { issues := [], err := some "failed to fetch issues: connection reset"
             requests := [{ StartAt := 0, MaxResults := 1000 }, { StartAt := 1, MaxResults := 1000 }] } :=
  ⟨(getIssues_paginates.2 scenarioSearch "project = MON" (fun _ => [scenarioIssue "To Do" none]) 2
      (fun _ => rfl) (fun _ _ => by simp)).imp (fun _ h => ⟨h.1, h.2.2.2⟩),
   getIssues_paginates.1 scenarioFailingSearch "project = MON"
      (fun _ => [scenarioIssue "To Do" none]) (fun _ => 2) 1 (.error "connection reset")
      (fun i hi => by obtain rfl : i = 0 := by omega
                      rfl)
      (fun i hi => by obtain rfl : i = 0 := by omega
                      decide)
      rfl (fun _ _ h => by simp at h) 5 (by decide)⟩

end Jirabot
